import Mathlib

/-!
Shallow embedding of the sales-analysis core (`src/sales_analyzer.py`) of the
analyse-ventes-reporting repository, together with theorems settling the
specification's claims about it.  A dataframe is embedded as a `List` of
`SaleRecord`; pandas groupby/agg pipelines become explicit key extraction,
filtering and summation; float cells that can be NaN are embedded as `PyFloat`;
the `round(2)` calls on aggregate frames are embedded as exact half-even
rounding on `ℚ`.
-/

namespace SalesAnalyzer

/-- Lexicographic comparison of character lists by code point, mirroring the
ordering pandas uses for a sorted string group index. -/
def charListLe : List Char → List Char → Bool
  | [], _ => true
  | _ :: _, [] => false
  | a :: as, b :: bs => if a < b then true else if b < a then false else charListLe as bs

/-- Lexicographic string comparison by code point. -/
def strLe (a b : String) : Bool := charListLe a.data b.data

/-- Ordering relation on strings used for sorted group keys. -/
def sLe (a b : String) : Prop := strLe a b = true

instance : DecidableRel sLe := fun _ _ => instDecidableEqBool _ _

theorem charListLe_total (as : List Char) : ∀ bs, charListLe as bs = true ∨ charListLe bs as = true := by
  induction as with
  | nil => intro bs; left; cases bs <;> rfl
  | cons a as ih =>
    intro bs
    cases bs with
    | nil => right; rfl
    | cons b bs =>
      rcases lt_trichotomy a b with h | h | h
      · left; simp [charListLe, h]
      · subst h
        rcases ih bs with h2 | h2
        · left; simp [charListLe, lt_irrefl, h2]
        · right; simp [charListLe, lt_irrefl, h2]
      · right; simp [charListLe, h]

theorem charListLe_trans (as : List Char) : ∀ bs cs, charListLe as bs = true →
    charListLe bs cs = true → charListLe as cs = true := by
  induction as with
  | nil => intro bs cs _ _; cases cs <;> rfl
  | cons a as ih =>
    intro bs cs h1 h2
    cases bs with
    | nil => simp [charListLe] at h1
    | cons b bs =>
      cases cs with
      | nil => simp [charListLe] at h2
      | cons c cs =>
        rcases lt_trichotomy a b with hab | hab | hab
        · rcases lt_trichotomy b c with hbc | hbc | hbc
          · simp [charListLe, lt_trans hab hbc]
          · subst hbc; simp [charListLe, hab]
          · simp [charListLe, lt_asymm hbc, hbc] at h2
        · subst hab
          rcases lt_trichotomy a c with hac | hac | hac
          · simp [charListLe, hac]
          · subst hac
            simp only [charListLe, lt_irrefl, if_false] at h1 h2 ⊢
            exact ih bs cs h1 h2
          · simp [charListLe, lt_asymm hac, hac] at h2
        · simp [charListLe, lt_asymm hab, hab] at h1

instance : IsTotal String sLe := ⟨fun a b => charListLe_total a.data b.data⟩

instance : IsTrans String sLe := ⟨fun a b c => charListLe_trans a.data b.data c.data⟩

/-- Calendar date (year, month, day), the embedding of the pandas datetime
date column at day granularity. -/
structure Date where
  year : Nat
  month : Nat
  day : Nat
deriving DecidableEq

/-- Gregorian leap-year test. -/
def isLeap (y : Nat) : Bool := (y % 4 == 0 && y % 100 != 0) || y % 400 == 0

/-- Days in the months before month `m` (1-indexed) of a common year. -/
def daysBeforeMonth (m : Nat) : Nat :=
  [0, 31, 59, 90, 120, 151, 181, 212, 243, 273, 304, 334].getD (m - 1) 334

/-- Proleptic Gregorian day number of a date; subtracting two day numbers is
the embedding of pandas timedelta subtraction measured in days. -/
def dateToDays (d : Date) : Nat :=
  365 * (d.year - 1) + (d.year - 1) / 4 - (d.year - 1) / 100 + (d.year - 1) / 400
    + daysBeforeMonth d.month + (if 2 < d.month ∧ isLeap d.year then 1 else 0) + d.day

/-- Year-month key of a date, counted in months, the embedding of the ordinal
of pandas to_period at month granularity. -/
def yearMonth (d : Date) : Nat := d.year * 12 + (d.month - 1)

/-- Maximum of a list of dates by day number.  The empty case mirrors the
pandas NaT placeholder; the analyses below never consult it. -/
def maxDate : List Date → Date
  | [] => ⟨1970, 1, 1⟩
  | d :: ds => ds.foldl (fun a b => if dateToDays a < dateToDays b then b else a) d

/-- Round a rational to the nearest integer with ties to even, the rounding
used by numpy and hence by the pandas round method on aggregate frames. -/
def roundHalfEven (q : ℚ) : ℤ :=
  if q - ⌊q⌋ < 1/2 then ⌊q⌋
  else if 1/2 < q - ⌊q⌋ then ⌊q⌋ + 1
  else if ⌊q⌋ % 2 = 0 then ⌊q⌋ else ⌊q⌋ + 1

/-- Round to two decimal places, the embedding of the `round(2)` calls applied
to every aggregated frame. -/
def round2 (q : ℚ) : ℚ := (roundHalfEven (q * 100) : ℚ) / 100

/-- A rational amount that is a whole number of cents. -/
def Cent (q : ℚ) : Prop := ∃ k : ℤ, q = (k : ℚ) / 100

theorem roundHalfEven_intCast (k : ℤ) : roundHalfEven (k : ℚ) = k := by
  rw [roundHalfEven]
  rw [Int.floor_intCast]
  norm_num

theorem round2_cent {q : ℚ} (h : Cent q) : round2 q = q := by
  obtain ⟨k, rfl⟩ := h
  have h100 : (k : ℚ) / 100 * 100 = (k : ℚ) := by
    rw [div_mul_cancel₀]
    norm_num
  rw [round2, h100, roundHalfEven_intCast]

theorem Cent.zero : Cent 0 := ⟨0, by norm_num⟩

theorem Cent.add {a b : ℚ} (ha : Cent a) (hb : Cent b) : Cent (a + b) := by
  obtain ⟨ka, rfl⟩ := ha
  obtain ⟨kb, rfl⟩ := hb
  exact ⟨ka + kb, by push_cast; ring⟩

theorem Cent.list_sum {xs : List ℚ} (h : ∀ x ∈ xs, Cent x) : Cent xs.sum := by
  induction xs with
  | nil => exact Cent.zero
  | cons x xs ih =>
    rw [List.sum_cons]
    exact Cent.add (h x (List.mem_cons_self x xs)) (ih fun y hy => h y (List.mem_cons_of_mem x hy))

/-- A numeric cell as pandas float arithmetic produces it: a finite value, the
silent not-a-number produced by empty means and zero-by-zero division, or the
infinity produced by nonzero-by-zero division. -/
inductive PyFloat where
  | num (q : ℚ)
  | nan
  | inf
deriving DecidableEq

/-- Mean of a float column: pandas yields NaN on an empty column. -/
def pymean (xs : List ℚ) : PyFloat :=
  if xs.length = 0 then PyFloat.nan else PyFloat.num (xs.sum / xs.length)

/-- Float division by an integer count as numpy performs it: zero by zero is
NaN, nonzero by zero is infinite, otherwise exact. -/
def pydiv (a : ℚ) (n : Nat) : PyFloat :=
  if n = 0 then (if a = 0 then PyFloat.nan else PyFloat.inf) else PyFloat.num (a / n)

/-- One sales record, the embedding of a row of the loaded dataframe. -/
structure SaleRecord where
  order_id : String
  date : Date
  customer_id : String
  product : String
  category : String
  quantity : Nat
  unit_price : ℚ
  total_price : ℚ
  unit_cost : ℚ
  total_cost : ℚ
  profit : ℚ
  margin_percent : ℚ
  region : String
  channel : String
  status : String
deriving DecidableEq

/-- Rows whose status equals the delivered literal, the filter every analysis
function applies first. -/
def delivered (l : List SaleRecord) : List SaleRecord :=
  l.filter (fun r => r.status == "Livrée")

/-- Distinct values of a key column in ascending key order, as a pandas
groupby presents its sorted group index. -/
def groupKeys {α K : Type} [DecidableEq K] (le : K → K → Prop) [DecidableRel le]
    (key : α → K) (l : List α) : List K :=
  List.insertionSort le ((l.map key).dedup)

/-- Rows of the group carrying the given key value. -/
def fiber {α K : Type} [BEq K] (key : α → K) (k : K) (l : List α) : List α :=
  l.filter (fun x => key x == k)

/-- Mean of a numeric column within a group (groups are nonempty by
construction). -/
def qmean (xs : List ℚ) : ℚ := xs.sum / xs.length

/-- Number of distinct values of a column, the embedding of nunique. -/
def nunique {α K : Type} [DecidableEq K] (key : α → K) (l : List α) : Nat :=
  ((l.map key).dedup).length

/-- Descending comparison by a rational-valued column, the order produced by
sorting on summed total price with ascending disabled. -/
def byDesc {α : Type} (f : α → ℚ) : α → α → Prop := fun a b => f b ≤ f a

instance {α : Type} (f : α → ℚ) : DecidableRel (byDesc f) :=
  fun a b => inferInstanceAs (Decidable (f b ≤ f a))

instance {α : Type} (f : α → ℚ) : IsTotal α (byDesc f) := ⟨fun a b => le_total (f b) (f a)⟩

instance {α : Type} (f : α → ℚ) : IsTrans α (byDesc f) := ⟨fun _ _ _ h1 h2 => le_trans h2 h1⟩

/-- The KPI dictionary built by `calculate_kpis`.  Sum- and count-valued
entries are always finite; the mean- and ratio-valued entries carry the
`PyFloat` produced by pandas. -/
structure Kpis where
  chiffre_affaires : ℚ
  profit_total : ℚ
  marge_moyenne : PyFloat
  nombre_ventes : Nat
  panier_moyen : PyFloat
  nombre_clients : Nat
  ca_par_client : PyFloat
  taux_annulation : ℚ
deriving DecidableEq

/-- Embedding of `calculate_kpis`.  The cancellation-rate entry divides two
Python integers, so a completely empty input raises ZeroDivisionError, which
the embedding surfaces as the error case. -/
def calculate_kpis (l : List SaleRecord) : Except String Kpis :=
  if l.length = 0 then Except.error "ZeroDivisionError" else
  Except.ok
    { chiffre_affaires := ((delivered l).map (fun r => r.total_price)).sum
      profit_total := ((delivered l).map (fun r => r.profit)).sum
      marge_moyenne := pymean ((delivered l).map (fun r => r.margin_percent))
      nombre_ventes := (delivered l).length
      panier_moyen := pymean ((delivered l).map (fun r => r.total_price))
      nombre_clients := nunique (fun r => r.customer_id) (delivered l)
      ca_par_client := pydiv (((delivered l).map (fun r => r.total_price)).sum)
        (nunique (fun r => r.customer_id) (delivered l))
      taux_annulation :=
        (((l.filter (fun r => r.status == "Annulée")).length : ℚ) / (l.length : ℚ)) * 100 }

/-- One output row of `analyze_by_category`. -/
structure CategoryRow where
  category : String
  CA_total : ℚ
  CA_moyen : ℚ
  Nb_ventes : Nat
  Profit_total : ℚ
  Marge_pct : ℚ
  Quantite_totale : Nat
deriving DecidableEq

/-- Embedding of `analyze_by_category`: filter to delivered rows, group by
category, aggregate, round to two decimals, sort by summed total price
descending. -/
def analyze_by_category (l : List SaleRecord) : List CategoryRow :=
  List.insertionSort (byDesc CategoryRow.CA_total)
    ((groupKeys sLe (fun r => r.category) (delivered l)).map (fun k =>
      { category := k
        CA_total := round2 (((fiber (fun r => r.category) k (delivered l)).map
          (fun r => r.total_price)).sum)
        CA_moyen := round2 (qmean ((fiber (fun r => r.category) k (delivered l)).map
          (fun r => r.total_price)))
        Nb_ventes := (fiber (fun r => r.category) k (delivered l)).length
        Profit_total := round2 (((fiber (fun r => r.category) k (delivered l)).map
          (fun r => r.profit)).sum)
        Marge_pct := round2 (qmean ((fiber (fun r => r.category) k (delivered l)).map
          (fun r => r.margin_percent)))
        Quantite_totale := ((fiber (fun r => r.category) k (delivered l)).map
          (fun r => r.quantity)).sum }))

/-- One output row of `analyze_by_region`. -/
structure RegionRow where
  region : String
  CA_total : ℚ
  CA_moyen : ℚ
  Profit : ℚ
  Nb_commandes : Nat
  Nb_clients : Nat
deriving DecidableEq

/-- Embedding of `analyze_by_region`. -/
def analyze_by_region (l : List SaleRecord) : List RegionRow :=
  List.insertionSort (byDesc RegionRow.CA_total)
    ((groupKeys sLe (fun r => r.region) (delivered l)).map (fun k =>
      { region := k
        CA_total := round2 (((fiber (fun r => r.region) k (delivered l)).map
          (fun r => r.total_price)).sum)
        CA_moyen := round2 (qmean ((fiber (fun r => r.region) k (delivered l)).map
          (fun r => r.total_price)))
        Profit := round2 (((fiber (fun r => r.region) k (delivered l)).map
          (fun r => r.profit)).sum)
        Nb_commandes := (fiber (fun r => r.region) k (delivered l)).length
        Nb_clients := nunique (fun r => r.customer_id)
          (fiber (fun r => r.region) k (delivered l)) }))

/-- One output row of `analyze_by_channel`. -/
structure ChannelRow where
  channel : String
  CA_total : ℚ
  CA_moyen : ℚ
  Profit : ℚ
  Marge_pct : ℚ
  Nb_ventes : Nat
deriving DecidableEq

/-- Embedding of `analyze_by_channel`. -/
def analyze_by_channel (l : List SaleRecord) : List ChannelRow :=
  List.insertionSort (byDesc ChannelRow.CA_total)
    ((groupKeys sLe (fun r => r.channel) (delivered l)).map (fun k =>
      { channel := k
        CA_total := round2 (((fiber (fun r => r.channel) k (delivered l)).map
          (fun r => r.total_price)).sum)
        CA_moyen := round2 (qmean ((fiber (fun r => r.channel) k (delivered l)).map
          (fun r => r.total_price)))
        Profit := round2 (((fiber (fun r => r.channel) k (delivered l)).map
          (fun r => r.profit)).sum)
        Marge_pct := round2 (qmean ((fiber (fun r => r.channel) k (delivered l)).map
          (fun r => r.margin_percent)))
        Nb_ventes := (fiber (fun r => r.channel) k (delivered l)).length }))

/-- One output row of `analyze_by_product`. -/
structure ProductRow where
  product : String
  CA_total : ℚ
  Profit : ℚ
  Marge_pct : ℚ
  Quantite_vendue : Nat
  Nb_commandes : Nat
deriving DecidableEq

/-- Grouped and descending-sorted product table, before the head truncation. -/
def product_rows_sorted (l : List SaleRecord) : List ProductRow :=
  List.insertionSort (byDesc ProductRow.CA_total)
    ((groupKeys sLe (fun r => r.product) (delivered l)).map (fun k =>
      { product := k
        CA_total := round2 (((fiber (fun r => r.product) k (delivered l)).map
          (fun r => r.total_price)).sum)
        Profit := round2 (((fiber (fun r => r.product) k (delivered l)).map
          (fun r => r.profit)).sum)
        Marge_pct := round2 (qmean ((fiber (fun r => r.product) k (delivered l)).map
          (fun r => r.margin_percent)))
        Quantite_vendue := ((fiber (fun r => r.product) k (delivered l)).map
          (fun r => r.quantity)).sum
        Nb_commandes := (fiber (fun r => r.product) k (delivered l)).length }))

/-- Embedding of `analyze_by_product`: the sorted product table truncated to
its first `top_n` rows; the Python signature defaults `top_n` to 10. -/
def analyze_by_product (l : List SaleRecord) (top_n : Nat) : List ProductRow :=
  (product_rows_sorted l).take top_n

/-- Call of `analyze_by_product` with the argument omitted, which the Python
default binds to 10. -/
def analyze_by_product_default (l : List SaleRecord) : List ProductRow :=
  analyze_by_product l 10

/-- One output row of `analyze_time_trends`. -/
structure TrendRow where
  year_month : Nat
  CA : ℚ
  Profit : ℚ
  Nb_commandes : Nat
  Nb_clients : Nat
deriving DecidableEq

/-- Embedding of `analyze_time_trends`: group delivered rows by the year-month
key of their date; the output stays in the ascending key order of the groupby
index, with no further sort. -/
def analyze_time_trends (l : List SaleRecord) : List TrendRow :=
  (groupKeys (· ≤ ·) (fun r => yearMonth r.date) (delivered l)).map (fun k =>
    { year_month := k
      CA := round2 (((fiber (fun r => yearMonth r.date) k (delivered l)).map
        (fun r => r.total_price)).sum)
      Profit := round2 (((fiber (fun r => yearMonth r.date) k (delivered l)).map
        (fun r => r.profit)).sum)
      Nb_commandes := (fiber (fun r => yearMonth r.date) k (delivered l)).length
      Nb_clients := nunique (fun r => r.customer_id)
        (fiber (fun r => yearMonth r.date) k (delivered l)) })

/-- Embedding of `segment_customer`: the row-wise classification applied to a
customer's delivered order count and (rounded) delivered spend. -/
def segment_customer (nb_commandes : Nat) (ca_total : ℚ) : String :=
  if 5 < nb_commandes ∨ 2000 < ca_total then "VIP"
  else if 3 ≤ nb_commandes then "Régulier"
  else "Occasionnel"

/-- Per-customer metrics row of `analyze_customer_segments`; `ca_total` is
rounded to two decimals by the `round(2)` on the aggregated frame before the
segment column is computed from it. -/
structure CustomerMetrics where
  derniere_commande : Date
  nb_commandes : Nat
  ca_total : ℚ
  recence_jours : ℤ
  segment : String
deriving DecidableEq

/-- One row of the per-segment summary frame. -/
structure SegmentSummaryRow where
  segment : String
  ca_total_sum : ℚ
  ca_total_mean : ℚ
  nb_commandes_sum : Nat
  nb_commandes_mean : ℚ
  recence_jours_mean : ℚ
deriving DecidableEq

/-- Metrics row of one customer group. -/
def customer_row (maxD : Date) (g : List SaleRecord) : CustomerMetrics :=
  { derniere_commande := maxDate (g.map (fun r => r.date))
    nb_commandes := g.length
    ca_total := round2 ((g.map (fun r => r.total_price)).sum)
    recence_jours := (dateToDays maxD : ℤ) - (dateToDays (maxDate (g.map (fun r => r.date))) : ℤ)
    segment := segment_customer g.length (round2 ((g.map (fun r => r.total_price)).sum)) }

/-- Embedding of `analyze_customer_segments`: per-customer metrics indexed by
the sorted distinct customer identifiers of the delivered rows, then a summary
grouped by the assigned segment. -/
def analyze_customer_segments (l : List SaleRecord) :
    List (String × CustomerMetrics) × List SegmentSummaryRow :=
  let metrics := (groupKeys sLe (fun r => r.customer_id) (delivered l)).map (fun c =>
    (c, customer_row (maxDate ((delivered l).map (fun r => r.date)))
      (fiber (fun r => r.customer_id) c (delivered l))))
  (metrics,
    (groupKeys sLe (fun p => p.2.segment) metrics).map (fun s =>
      { segment := s
        ca_total_sum := round2 (((fiber (fun p => p.2.segment) s metrics).map
          (fun p => p.2.ca_total)).sum)
        ca_total_mean := round2 (qmean ((fiber (fun p => p.2.segment) s metrics).map
          (fun p => p.2.ca_total)))
        nb_commandes_sum := ((fiber (fun p => p.2.segment) s metrics).map
          (fun p => p.2.nb_commandes)).sum
        nb_commandes_mean := round2 (qmean ((fiber (fun p => p.2.segment) s metrics).map
          (fun p => (p.2.nb_commandes : ℚ))))
        recence_jours_mean := round2 (qmean ((fiber (fun p => p.2.segment) s metrics).map
          (fun p => (p.2.recence_jours : ℚ)))) }))

theorem groupKeys_nodup {α K : Type} [DecidableEq K] (le : K → K → Prop) [DecidableRel le]
    (key : α → K) (l : List α) : (groupKeys le key l).Nodup :=
  ((List.perm_insertionSort le _).nodup_iff).mpr (List.nodup_dedup _)

theorem mem_groupKeys {α K : Type} [DecidableEq K] (le : K → K → Prop) [DecidableRel le]
    (key : α → K) (l : List α) (k : K) : k ∈ groupKeys le key l ↔ k ∈ l.map key := by
  rw [groupKeys, List.mem_insertionSort]
  exact List.mem_dedup

theorem sum_map_insertionSort {Row : Type} (r : Row → Row → Prop) [DecidableRel r]
    (f : Row → ℚ) (rows : List Row) :
    ((List.insertionSort r rows).map f).sum = (rows.map f).sum :=
  ((List.perm_insertionSort r rows).map f).sum_eq

/-- Summing a grouped column over all groups recovers the whole-column sum,
provided the key list is duplicate-free and covers every row. -/
theorem sum_map_fiber {α K : Type} [BEq K] [LawfulBEq K] (key : α → K) (f : α → ℚ) :
    ∀ ks : List K, ks.Nodup → ∀ l : List α, (∀ x ∈ l, key x ∈ ks) →
      (ks.map (fun k => ((fiber key k l).map f).sum)).sum = (l.map f).sum := by
  intro ks
  induction ks with
  | nil =>
    intro _ l hcov
    cases l with
    | nil => simp
    | cons x t => exact absurd (hcov x (List.mem_cons_self x t)) (List.not_mem_nil _)
  | cons k ks ih =>
    intro hnd l hcov
    have hnd2 : ks.Nodup := (List.nodup_cons.mp hnd).2
    have hknotin : k ∉ ks := (List.nodup_cons.mp hnd).1
    have hsplit : ((l.filter (fun x => key x == k)).map f).sum
        + ((l.filter (fun x => !(key x == k))).map f).sum = (l.map f).sum := by
      have hperm := (List.filter_append_perm (fun x => key x == k) l).map f
      have hsum := hperm.sum_eq
      rw [List.map_append, List.sum_append] at hsum
      exact hsum
    have hfib : ∀ k2 ∈ ks, fiber key k2 (l.filter (fun x => !(key x == k))) = fiber key k2 l := by
      intro k2 hk2
      rw [fiber, fiber, List.filter_filter]
      apply List.filter_congr
      intro x _
      cases hx2 : (key x == k2) with
      | false => simp [hx2]
      | true =>
        have hxk2 : key x = k2 := eq_of_beq hx2
        have hne : key x ≠ k := by
          rw [hxk2]
          intro hkk
          exact hknotin (hkk ▸ hk2)
        simp [hx2, beq_eq_false_iff_ne.mpr hne]
    have hcov2 : ∀ x ∈ l.filter (fun x => !(key x == k)), key x ∈ ks := by
      intro x hx
      obtain ⟨hxl, hp⟩ := List.mem_filter.mp hx
      have hne : key x ≠ k := by
        intro hkk
        rw [Bool.not_eq_eq_eq_not] at hp
        exact absurd (beq_iff_eq.mpr hkk) (by simp [hp])
      rcases List.mem_cons.mp (hcov x hxl) with h | h
      · exact absurd h hne
      · exact h
    rw [List.map_cons, List.sum_cons]
    have hrest : (ks.map (fun k2 => ((fiber key k2 l).map f).sum)).sum
        = ((l.filter (fun x => !(key x == k))).map f).sum := by
      rw [← ih hnd2 (l.filter (fun x => !(key x == k))) hcov2]
      apply congrArg
      apply List.map_congr_left
      intro k2 hk2
      rw [hfib k2 hk2]
    rw [hrest]
    rw [show fiber key k l = l.filter (fun x => key x == k) from rfl]
    exact hsplit

/-- Summing the rounded grouped column over the sorted group keys recovers the
whole-column sum when every cell is a whole number of cents. -/
theorem sum_groupKeys_round2 {α K : Type} [DecidableEq K] [BEq K] [LawfulBEq K]
    (le : K → K → Prop) [DecidableRel le] (key : α → K) (f : α → ℚ) (l : List α)
    (hc : ∀ x ∈ l, Cent (f x)) :
    ((groupKeys le key l).map (fun k => round2 (((fiber key k l).map f).sum))).sum
      = (l.map f).sum := by
  have h1 : ∀ k ∈ groupKeys le key l,
      round2 (((fiber key k l).map f).sum) = ((fiber key k l).map f).sum := by
    intro k _
    apply round2_cent
    apply Cent.list_sum
    intro x hx
    obtain ⟨r, hr, rfl⟩ := List.mem_map.mp hx
    exact hc r (List.mem_filter.mp hr).1
  rw [List.map_congr_left h1]
  exact sum_map_fiber key f (groupKeys le key l) (groupKeys_nodup le key l) l
    (fun x hx => (mem_groupKeys le key l (key x)).mpr (List.mem_map_of_mem key hx))

theorem sum_CA_category (l : List SaleRecord) (hc : ∀ r ∈ delivered l, Cent r.total_price) :
    ((analyze_by_category l).map CategoryRow.CA_total).sum
      = ((delivered l).map (fun r => r.total_price)).sum := by
  rw [analyze_by_category, sum_map_insertionSort, List.map_map]
  refine Eq.trans ?_
    (sum_groupKeys_round2 sLe (fun r => r.category) (fun r => r.total_price) (delivered l) hc)
  exact congrArg List.sum (List.map_congr_left (fun k _ => rfl))

theorem sum_CA_region (l : List SaleRecord) (hc : ∀ r ∈ delivered l, Cent r.total_price) :
    ((analyze_by_region l).map RegionRow.CA_total).sum
      = ((delivered l).map (fun r => r.total_price)).sum := by
  rw [analyze_by_region, sum_map_insertionSort, List.map_map]
  refine Eq.trans ?_
    (sum_groupKeys_round2 sLe (fun r => r.region) (fun r => r.total_price) (delivered l) hc)
  exact congrArg List.sum (List.map_congr_left (fun k _ => rfl))

theorem sum_CA_channel (l : List SaleRecord) (hc : ∀ r ∈ delivered l, Cent r.total_price) :
    ((analyze_by_channel l).map ChannelRow.CA_total).sum
      = ((delivered l).map (fun r => r.total_price)).sum := by
  rw [analyze_by_channel, sum_map_insertionSort, List.map_map]
  refine Eq.trans ?_
    (sum_groupKeys_round2 sLe (fun r => r.channel) (fun r => r.total_price) (delivered l) hc)
  exact congrArg List.sum (List.map_congr_left (fun k _ => rfl))

theorem sum_CA_product_rows (l : List SaleRecord) (hc : ∀ r ∈ delivered l, Cent r.total_price) :
    ((product_rows_sorted l).map ProductRow.CA_total).sum
      = ((delivered l).map (fun r => r.total_price)).sum := by
  rw [product_rows_sorted, sum_map_insertionSort, List.map_map]
  refine Eq.trans ?_
    (sum_groupKeys_round2 sLe (fun r => r.product) (fun r => r.total_price) (delivered l) hc)
  exact congrArg List.sum (List.map_congr_left (fun k _ => rfl))

theorem sum_CA_trends (l : List SaleRecord) (hc : ∀ r ∈ delivered l, Cent r.total_price) :
    ((analyze_time_trends l).map TrendRow.CA).sum
      = ((delivered l).map (fun r => r.total_price)).sum := by
  rw [analyze_time_trends, List.map_map]
  refine Eq.trans ?_
    (sum_groupKeys_round2 (· ≤ ·) (fun r => yearMonth r.date) (fun r => r.total_price)
      (delivered l) hc)
  exact congrArg List.sum (List.map_congr_left (fun k _ => rfl))

/-- Mapping the sort column over a descending insertion sort yields a weakly
descending list. -/
theorem pairwise_ge_map_insertionSort {Row : Type} (f : Row → ℚ) (rows : List Row) :
    ((List.insertionSort (byDesc f) rows).map f).Pairwise (fun a b => b ≤ a) := by
  rw [List.pairwise_map]
  exact List.sorted_insertionSort (byDesc f) rows

/-- Sorted duplicate-free natural-number group keys are strictly increasing. -/
theorem pairwise_lt_groupKeys_nat {α : Type} (key : α → Nat) (l : List α) :
    (groupKeys (· ≤ ·) key l).Pairwise (· < ·) := by
  have hs : (groupKeys (· ≤ ·) key l).Pairwise (· ≤ ·) :=
    List.sorted_insertionSort (· ≤ ·) ((l.map key).dedup)
  have hn : (groupKeys (· ≤ ·) key l).Pairwise (· ≠ ·) :=
    groupKeys_nodup (· ≤ ·) key l
  exact (hs.and hn).imp (fun h => lt_of_le_of_ne h.1 h.2)

theorem trend_keys (l : List SaleRecord) :
    (analyze_time_trends l).map TrendRow.year_month
      = groupKeys (· ≤ ·) (fun r => yearMonth r.date) (delivered l) := by
  rw [analyze_time_trends, List.map_map]
  exact List.map_id' _

theorem segments_fst_map (l : List SaleRecord) :
    (analyze_customer_segments l).1.map (fun p => p.1)
      = groupKeys sLe (fun r => r.customer_id) (delivered l) := by
  simp only [analyze_customer_segments]
  rw [List.map_map]
  exact List.map_id' _

theorem mem_segments (l : List SaleRecord) (c : String) (m : CustomerMetrics)
    (h : (c, m) ∈ (analyze_customer_segments l).1) :
    c ∈ groupKeys sLe (fun r => r.customer_id) (delivered l) ∧
      m = customer_row (maxDate ((delivered l).map (fun r => r.date)))
        (fiber (fun r => r.customer_id) c (delivered l)) := by
  simp only [analyze_customer_segments] at h
  obtain ⟨c2, hc2, heq⟩ := List.mem_map.mp h
  cases heq
  exact ⟨hc2, rfl⟩

/-- Concrete delivered record used to exercise the analyses. -/
def baseRec : SaleRecord :=
  { order_id := "O1", date := ⟨2024, 1, 15⟩, customer_id := "C1", product := "Laptop",
    category := "Electronique", quantity := 1, unit_price := 899, total_price := 899,
    unit_cost := 600, total_cost := 600, profit := 299, margin_percent := 33,
    region := "Nord", channel := "Online", status := "Livrée" }

/-- Concrete record with a pending status. -/
def pendingRec : SaleRecord := { baseRec with order_id := "O2", status := "En cours" }

/-- Concrete record with a cancelled status. -/
def cancelledRec : SaleRecord := { baseRec with order_id := "O3", status := "Annulée" }

/-- Two delivered records in distinct categories with equal total price. -/
def tieRecA : SaleRecord := { baseRec with order_id := "O4", category := "A", total_price := 10 }

def tieRecB : SaleRecord := { baseRec with order_id := "O5", category := "B", total_price := 10 }

/-- Delivered record whose total price carries a sub-cent fraction. -/
def milliRec : SaleRecord := { baseRec with total_price := 1/1000 }

/-- Delivered record whose total price exceeds 2000 by a sub-cent fraction. -/
def fracRec : SaleRecord := { baseRec with total_price := 2000 + 1/250 }

def prodRecA : SaleRecord :=
  { baseRec with
    order_id := "O6"
    product := "A"
    total_price := 10
    profit := 5
    margin_percent := 50 }

def prodRecB : SaleRecord :=
  { baseRec with
    order_id := "O7"
    product := "B"
    total_price := 4
    profit := 2
    margin_percent := 50 }

/-- C6: if the input has zero delivered records, segmentation returns an empty
per-customer metrics list and an empty per-segment summary; being a total
function of the embedding, it raises no error. -/
theorem C6_segments_empty (l : List SaleRecord) (h : delivered l = []) :
    analyze_customer_segments l = ([], []) := by
  simp [analyze_customer_segments, h, groupKeys, List.insertionSort]

theorem C6_segments_empty_w :
    delivered [pendingRec] = [] ∧ analyze_customer_segments [pendingRec] = ([], []) :=
  ⟨by simp [delivered, pendingRec, baseRec, List.filter],
    C6_segments_empty [pendingRec] (by simp [delivered, pendingRec, baseRec, List.filter])⟩

/-- C3 as stated is false: with two categories tied on summed total price the
category output is not strictly descending in total price (the tie repeats the
value).  Concretely, two delivered records of price 10 in categories A and B
give the column [10, 10]. -/
theorem C3_counterexample :
    ¬ ((analyze_by_category [tieRecA, tieRecB]).map CategoryRow.CA_total).Pairwise
      (fun a b => b < a) := by
  have heval : (analyze_by_category [tieRecA, tieRecB]).map CategoryRow.CA_total = [10, 10] := by
    simp only [analyze_by_category, delivered, groupKeys, fiber, qmean, tieRecA, tieRecB,
      baseRec, sLe, strLe, charListLe, List.filter, List.map, List.dedup, List.pwFilter,
      List.insertionSort, List.orderedInsert, byDesc]
    norm_num [round2, roundHalfEven]
  rw [heval]
  intro hp
  exact absurd ((List.pairwise_cons.mp hp).1 10 (List.mem_singleton.mpr rfl)) (lt_irrefl 10)

/-- C3 amended: the four dimensional aggregation outputs are sorted in weakly
descending order of summed total price (strict only up to ties), and the
monthly trend output is sorted strictly ascending by year-month key. -/
theorem C3_sorted (l : List SaleRecord) (top_n : Nat) :
    ((analyze_by_category l).map CategoryRow.CA_total).Pairwise (fun a b => b ≤ a) ∧
    ((analyze_by_region l).map RegionRow.CA_total).Pairwise (fun a b => b ≤ a) ∧
    ((analyze_by_channel l).map ChannelRow.CA_total).Pairwise (fun a b => b ≤ a) ∧
    ((analyze_by_product l top_n).map ProductRow.CA_total).Pairwise (fun a b => b ≤ a) ∧
    ((analyze_time_trends l).map TrendRow.year_month).Pairwise (· < ·) := by
  refine ⟨?_, ?_, ?_, ?_, ?_⟩
  · rw [analyze_by_category]
    exact pairwise_ge_map_insertionSort _ _
  · rw [analyze_by_region]
    exact pairwise_ge_map_insertionSort _ _
  · rw [analyze_by_channel]
    exact pairwise_ge_map_insertionSort _ _
  · have hp : ((product_rows_sorted l).map ProductRow.CA_total).Pairwise (fun a b => b ≤ a) := by
      rw [product_rows_sorted]
      exact pairwise_ge_map_insertionSort _ _
    rw [analyze_by_product, List.map_take]
    exact List.Pairwise.sublist (List.take_sublist _ _) hp
  · rw [trend_keys]
    exact pairwise_lt_groupKeys_nat _ _

/-- C1 as stated is false: on an input with one pending record and hence zero
delivered records, `calculate_kpis` returns an ordinary KPI dictionary in
which the average basket and revenue-per-customer entries are the silent
float NaN, not a distinguished undefined or error result. -/
theorem C1_counterexample :
    calculate_kpis [pendingRec]
      = Except.ok ⟨0, 0, PyFloat.nan, 0, PyFloat.nan, 0, PyFloat.nan, 0⟩ := by
  simp only [calculate_kpis, delivered, pendingRec, baseRec, pymean, pydiv, nunique,
    List.filter, List.map, List.dedup, List.length]
  norm_num

/-- C1 amended: on a nonempty input with zero delivered records the KPI
computation returns normally (no crash), and the mean-based and ratio-based
entries carry NaN — not zero and not an explicit error indicator.  (On a
completely empty input the cancellation-rate division raises
ZeroDivisionError instead.) -/
theorem C1_kpis_nan (l : List SaleRecord) (h0 : l ≠ []) (hd : delivered l = []) :
    ∃ k : Kpis, calculate_kpis l = Except.ok k ∧ k.panier_moyen = PyFloat.nan ∧
      k.ca_par_client = PyFloat.nan ∧ k.marge_moyenne = PyFloat.nan ∧
      k.panier_moyen ≠ PyFloat.num 0 ∧ k.ca_par_client ≠ PyFloat.num 0 := by
  have hlen : ¬ l.length = 0 := by
    simpa [List.length_eq_zero] using h0
  refine ⟨_, by rw [calculate_kpis, if_neg hlen], ?_, ?_, ?_, ?_, ?_⟩ <;>
    simp [hd, pymean, pydiv, nunique]

theorem C1_kpis_nan_w :
    ([pendingRec] ≠ ([] : List SaleRecord)) ∧ delivered [pendingRec] = [] ∧
      ∃ k : Kpis, calculate_kpis [pendingRec] = Except.ok k ∧ k.panier_moyen = PyFloat.nan ∧
        k.ca_par_client = PyFloat.nan ∧ k.marge_moyenne = PyFloat.nan ∧
        k.panier_moyen ≠ PyFloat.num 0 ∧ k.ca_par_client ≠ PyFloat.num 0 :=
  ⟨by simp, by simp [delivered, pendingRec, baseRec, List.filter],
    C1_kpis_nan [pendingRec] (by simp)
      (by simp [delivered, pendingRec, baseRec, List.filter])⟩

/-- C5 as stated is false: the cancellation-rate KPI is computed over the whole
input, so a cancelled record changes the KPI set even though the delivered
subset is unchanged — adding one cancelled record moves the rate from 0 to
50 percent. -/
theorem C5_counterexample :
    delivered [baseRec, cancelledRec] = delivered [baseRec] ∧
      calculate_kpis [baseRec, cancelledRec] ≠ calculate_kpis [baseRec] := by
  constructor
  · simp [delivered, baseRec, cancelledRec, List.filter]
  · have h1 : calculate_kpis [baseRec, cancelledRec]
        = Except.ok ⟨899, 299, PyFloat.num 33, 1, PyFloat.num 899, 1, PyFloat.num 899, 50⟩ := by
      simp only [calculate_kpis, delivered, baseRec, cancelledRec, pymean, pydiv, nunique,
        List.filter, List.map, List.dedup, List.pwFilter, List.length]
      norm_num
    have h2 : calculate_kpis [baseRec]
        = Except.ok ⟨899, 299, PyFloat.num 33, 1, PyFloat.num 899, 1, PyFloat.num 899, 0⟩ := by
      simp only [calculate_kpis, delivered, baseRec, pymean, pydiv, nunique,
        List.filter, List.map, List.dedup, List.pwFilter, List.length]
      norm_num
    rw [h1, h2]
    intro h
    norm_num at h

/-- C5 amended: every KPI except the cancellation rate is a function of the
delivered subset alone — two nonempty inputs with identical delivered filters
agree on all KPI entries other than `taux_annulation`. -/
theorem C5_delivered_only (l1 l2 : List SaleRecord) (h1 : l1 ≠ []) (h2 : l2 ≠ [])
    (hdel : delivered l1 = delivered l2) :
    ∃ k1 k2 : Kpis, calculate_kpis l1 = Except.ok k1 ∧ calculate_kpis l2 = Except.ok k2 ∧
      k1.chiffre_affaires = k2.chiffre_affaires ∧ k1.profit_total = k2.profit_total ∧
      k1.marge_moyenne = k2.marge_moyenne ∧ k1.nombre_ventes = k2.nombre_ventes ∧
      k1.panier_moyen = k2.panier_moyen ∧ k1.nombre_clients = k2.nombre_clients ∧
      k1.ca_par_client = k2.ca_par_client := by
  have e1 : ¬ l1.length = 0 := by simpa [List.length_eq_zero] using h1
  have e2 : ¬ l2.length = 0 := by simpa [List.length_eq_zero] using h2
  refine ⟨_, _, by rw [calculate_kpis, if_neg e1], by rw [calculate_kpis, if_neg e2],
    ?_, ?_, ?_, ?_, ?_, ?_, ?_⟩ <;> simp [hdel]

theorem C5_delivered_only_w :
    ([baseRec, cancelledRec] ≠ ([] : List SaleRecord)) ∧ ([baseRec] ≠ ([] : List SaleRecord)) ∧
      delivered [baseRec, cancelledRec] = delivered [baseRec] ∧
      ∃ k1 k2 : Kpis, calculate_kpis [baseRec, cancelledRec] = Except.ok k1 ∧
        calculate_kpis [baseRec] = Except.ok k2 ∧
        k1.chiffre_affaires = k2.chiffre_affaires ∧ k1.profit_total = k2.profit_total ∧
        k1.marge_moyenne = k2.marge_moyenne ∧ k1.nombre_ventes = k2.nombre_ventes ∧
        k1.panier_moyen = k2.panier_moyen ∧ k1.nombre_clients = k2.nombre_clients ∧
        k1.ca_par_client = k2.ca_par_client :=
  ⟨by simp, by simp, by simp [delivered, baseRec, cancelledRec, List.filter],
    C5_delivered_only [baseRec, cancelledRec] [baseRec] (by simp) (by simp)
      (by simp [delivered, baseRec, cancelledRec, List.filter])⟩

/-- Characterization of the three segment buckets as an ordered decision. -/
theorem segment_characterization (n : Nat) (q : ℚ) :
    (segment_customer n q = "VIP" ↔ 5 < n ∨ 2000 < q) ∧
    (segment_customer n q = "Régulier" ↔ ¬(5 < n ∨ 2000 < q) ∧ 3 ≤ n ∧ n ≤ 5) ∧
    (segment_customer n q = "Occasionnel" ↔ ¬(5 < n ∨ 2000 < q) ∧ n ≤ 2) := by
  rw [segment_customer]
  by_cases h1 : 5 < n ∨ 2000 < q
  · rw [if_pos h1]
    refine ⟨by simp [h1], by simp [h1], by simp [h1]⟩
  · rw [if_neg h1]
    have h5 : n ≤ 5 := not_lt.mp (fun hh => h1 (Or.inl hh))
    by_cases h2 : 3 ≤ n
    · rw [if_pos h2]
      refine ⟨by simp [h1], by simp [h1, h2, h5], ?_⟩
      simp [h1]
      omega
    · rw [if_neg h2]
      have h3 : n ≤ 2 := by omega
      refine ⟨by simp [h1], ?_, by simp [h1, h3]⟩
      simp [h1]
      omega

/-- Per-customer metrics row produced for the single delivered base record. -/
def baseMetrics : CustomerMetrics := ⟨⟨2024, 1, 15⟩, 1, 899, 0, "Occasionnel"⟩

/-- C2 amended: the assigned segment is the ordered threshold decision applied
to the customer's delivered order count and delivered spend rounded to two
decimals (the aggregated frame is rounded before classification); the three
enumerated instances hold as stated. -/
theorem C2_segment_rule :
    (∀ (l : List SaleRecord) (c : String) (m : CustomerMetrics),
        (c, m) ∈ (analyze_customer_segments l).1 →
        m.nb_commandes = (fiber (fun r => r.customer_id) c (delivered l)).length ∧
        m.ca_total = round2 (((fiber (fun r => r.customer_id) c (delivered l)).map
          (fun r => r.total_price)).sum) ∧
        m.segment = segment_customer m.nb_commandes m.ca_total) ∧
    (∀ (n : Nat) (q : ℚ),
        (segment_customer n q = "VIP" ↔ 5 < n ∨ 2000 < q) ∧
        (segment_customer n q = "Régulier" ↔ ¬(5 < n ∨ 2000 < q) ∧ 3 ≤ n ∧ n ≤ 5) ∧
        (segment_customer n q = "Occasionnel" ↔ ¬(5 < n ∨ 2000 < q) ∧ n ≤ 2)) ∧
    segment_customer 6 500 = "VIP" ∧ segment_customer 1 2500 = "VIP" ∧
      segment_customer 4 300 = "Régulier" := by
  refine ⟨?_, fun n q => segment_characterization n q, ?_, ?_, ?_⟩
  · intro l c m h
    obtain ⟨-, rfl⟩ := mem_segments l c m h
    exact ⟨rfl, rfl, rfl⟩
  · norm_num [segment_customer]
  · norm_num [segment_customer]
  · norm_num [segment_customer]

theorem C2_segment_rule_w :
    (("C1", baseMetrics) ∈ (analyze_customer_segments [baseRec]).1) ∧
      baseMetrics.nb_commandes
        = (fiber (fun r => r.customer_id) "C1" (delivered [baseRec])).length ∧
      baseMetrics.ca_total = round2 (((fiber (fun r => r.customer_id) "C1"
        (delivered [baseRec])).map (fun r => r.total_price)).sum) ∧
      baseMetrics.segment = segment_customer baseMetrics.nb_commandes baseMetrics.ca_total := by
  have hmem : ("C1", baseMetrics) ∈ (analyze_customer_segments [baseRec]).1 := by
    simp only [analyze_customer_segments, customer_row, delivered, groupKeys, fiber,
      baseRec, baseMetrics, maxDate, List.filter, List.map, List.dedup, List.pwFilter,
      List.insertionSort, List.orderedInsert, List.length, List.foldl]
    norm_num [round2, roundHalfEven, segment_customer]
  exact ⟨hmem, C2_segment_rule.1 [baseRec] "C1" baseMetrics hmem⟩

/-- C2 as stated is false at sub-cent spends: a customer with one delivered
order of total price 2000.004 has delivered spend above 2000, yet the code
rounds the aggregated spend to 2000 before classifying, so the customer is
labelled Occasionnel instead of VIP. -/
theorem C2_counterexample :
    (analyze_customer_segments [fracRec]).1.map (fun p => p.2.segment) = ["Occasionnel"] ∧
      2000 < ((delivered [fracRec]).map (fun r => r.total_price)).sum ∧
      (delivered [fracRec]).length = 1 := by
  refine ⟨?_, ?_, ?_⟩
  · simp only [analyze_customer_segments, customer_row, delivered, groupKeys, fiber,
      fracRec, baseRec, maxDate, List.filter, List.map, List.dedup, List.pwFilter,
      List.insertionSort, List.orderedInsert, List.length, List.foldl]
    norm_num [round2, roundHalfEven, segment_customer]
  · simp only [delivered, fracRec, baseRec, List.filter, List.map]
    norm_num
  · simp [delivered, fracRec, baseRec, List.filter]

/-- C7: segmentation is total and deterministic — every customer identifier
with a delivered record indexes exactly one metrics row, every row's segment
is one of the three buckets, and the function returns equal outputs on equal
inputs. -/
theorem C7_total_deterministic :
    (∀ (l : List SaleRecord) (c : String),
        c ∈ (delivered l).map (fun r => r.customer_id) →
        ((analyze_customer_segments l).1.map (fun p => p.1)).count c = 1) ∧
    (∀ (l : List SaleRecord) (p : String × CustomerMetrics),
        p ∈ (analyze_customer_segments l).1 →
        p.2.segment = "VIP" ∨ p.2.segment = "Régulier" ∨ p.2.segment = "Occasionnel") ∧
    (∀ l : List SaleRecord, analyze_customer_segments l = analyze_customer_segments l) := by
  refine ⟨?_, ?_, fun l => rfl⟩
  · intro l c hc
    rw [segments_fst_map]
    exact List.count_eq_one_of_mem (groupKeys_nodup sLe (fun r => r.customer_id) (delivered l))
      ((mem_groupKeys sLe (fun r => r.customer_id) (delivered l) c).mpr hc)
  · intro l p hp
    simp only [analyze_customer_segments] at hp
    obtain ⟨c2, hc2, rfl⟩ := List.mem_map.mp hp
    show segment_customer _ _ = "VIP" ∨ segment_customer _ _ = "Régulier" ∨
      segment_customer _ _ = "Occasionnel"
    rw [segment_customer]
    split_ifs <;> simp

theorem C7_total_deterministic_w :
    ("C1" ∈ (delivered [baseRec]).map (fun r => r.customer_id)) ∧
      ((analyze_customer_segments [baseRec]).1.map (fun p => p.1)).count "C1" = 1 := by
  have hc : "C1" ∈ (delivered [baseRec]).map (fun r => r.customer_id) := by
    simp [delivered, baseRec, List.filter]
  exact ⟨hc, C7_total_deterministic.1 [baseRec] "C1" hc⟩

/-- C4 as stated is false: the grouped sums are rounded to two decimals, so a
delivered record with the sub-cent total price 0.001 yields a category table
whose summed total price column is 0, not 0.001. -/
theorem C4_counterexample :
    ((analyze_by_category [milliRec]).map CategoryRow.CA_total).sum
      ≠ ((delivered [milliRec]).map (fun r => r.total_price)).sum := by
  have h1 : ((analyze_by_category [milliRec]).map CategoryRow.CA_total).sum = 0 := by
    simp only [analyze_by_category, delivered, groupKeys, fiber, qmean, milliRec, baseRec,
      sLe, strLe, charListLe, List.filter, List.map, List.dedup, List.pwFilter,
      List.insertionSort, List.orderedInsert, byDesc]
    norm_num [round2, roundHalfEven]
  have h2 : ((delivered [milliRec]).map (fun r => r.total_price)).sum = 1/1000 := by
    simp [delivered, milliRec, baseRec, List.filter]
  rw [h1, h2]
  norm_num

/-- C4 amended: when every delivered total price is a whole number of cents
(as the data model prescribes), the rounded group sums partition the delivered
total for the category, region, channel and month dimensions, and for the
product dimension whenever the number of distinct delivered products does not
exceed the truncation bound. -/
theorem C4_partition (l : List SaleRecord) (hc : ∀ r ∈ delivered l, Cent r.total_price)
    (hne : delivered l ≠ []) :
    ((analyze_by_category l).map CategoryRow.CA_total).sum
        = ((delivered l).map (fun r => r.total_price)).sum ∧
    ((analyze_by_region l).map RegionRow.CA_total).sum
        = ((delivered l).map (fun r => r.total_price)).sum ∧
    ((analyze_by_channel l).map ChannelRow.CA_total).sum
        = ((delivered l).map (fun r => r.total_price)).sum ∧
    ((analyze_time_trends l).map TrendRow.CA).sum
        = ((delivered l).map (fun r => r.total_price)).sum ∧
    (∀ top_n : Nat, (groupKeys sLe (fun r => r.product) (delivered l)).length ≤ top_n →
      ((analyze_by_product l top_n).map ProductRow.CA_total).sum
        = ((delivered l).map (fun r => r.total_price)).sum) := by
  refine ⟨sum_CA_category l hc, sum_CA_region l hc, sum_CA_channel l hc, sum_CA_trends l hc, ?_⟩
  intro top_n hn
  rw [analyze_by_product, List.take_of_length_le]
  · exact sum_CA_product_rows l hc
  · rw [product_rows_sorted, List.length_insertionSort, List.length_map]
    exact hn

theorem C4_partition_w :
    (∀ r ∈ delivered [baseRec], Cent r.total_price) ∧ delivered [baseRec] ≠ [] ∧
      ((analyze_by_category [baseRec]).map CategoryRow.CA_total).sum
        = ((delivered [baseRec]).map (fun r => r.total_price)).sum := by
  have hc : ∀ r ∈ delivered [baseRec], Cent r.total_price := by
    intro r hr
    have : r = baseRec := by
      simpa [delivered, baseRec, List.filter] using hr
    rw [this]
    exact ⟨89900, by norm_num [baseRec]⟩
  have hne : delivered [baseRec] ≠ [] := by
    simp [delivered, baseRec, List.filter]
  exact ⟨hc, hne, (C4_partition [baseRec] hc hne).1⟩

/-- C10: the product aggregation returns at most `top_n` rows, each returned
row's summed total price is at least that of every row it leaves out of the
descending-sorted product table, and omitting the argument is the same as
passing 10. -/
theorem C10_top_n (l : List SaleRecord) (top_n : Nat) :
    (analyze_by_product l top_n).length ≤ top_n ∧
    (∀ x ∈ analyze_by_product l top_n, ∀ y ∈ product_rows_sorted l,
        y ∉ analyze_by_product l top_n → y.CA_total ≤ x.CA_total) ∧
    analyze_by_product_default l = analyze_by_product l 10 := by
  refine ⟨?_, ?_, rfl⟩
  · rw [analyze_by_product, List.length_take]
    exact min_le_left _ _
  · intro x hx y hy hyn
    have hys : y ∈ (product_rows_sorted l).drop top_n := by
      have hsplit := List.take_append_drop top_n (product_rows_sorted l)
      rw [← hsplit] at hy
      rcases List.mem_append.mp hy with h | h
      · exact absurd h hyn
      · exact h
    have hsorted : List.Sorted (byDesc ProductRow.CA_total) (product_rows_sorted l) := by
      rw [product_rows_sorted]
      exact List.sorted_insertionSort _ _
    exact hsorted.rel_of_mem_take_of_mem_drop hx hys

/-- Concrete product rows used to instantiate the truncation theorem. -/
def prodRowA : ProductRow := ⟨"A", 10, 5, 50, 1, 1⟩

def prodRowB : ProductRow := ⟨"B", 4, 2, 50, 1, 1⟩

theorem C10_top_n_w :
    (prodRowA ∈ analyze_by_product [prodRecA, prodRecB] 1) ∧
      (prodRowB ∈ product_rows_sorted [prodRecA, prodRecB]) ∧
      (prodRowB ∉ analyze_by_product [prodRecA, prodRecB] 1) ∧
      prodRowB.CA_total ≤ prodRowA.CA_total := by
  have heval : product_rows_sorted [prodRecA, prodRecB] = [prodRowA, prodRowB] := by
    simp only [product_rows_sorted, delivered, groupKeys, fiber, qmean, prodRecA, prodRecB,
      prodRowA, prodRowB, baseRec, sLe, strLe, charListLe, List.filter, List.map,
      List.dedup, List.pwFilter, List.insertionSort, List.orderedInsert, byDesc, List.length]
    norm_num [round2, roundHalfEven]
  have h1 : prodRowA ∈ analyze_by_product [prodRecA, prodRecB] 1 := by
    rw [analyze_by_product, heval]
    simp
  have h2 : prodRowB ∈ product_rows_sorted [prodRecA, prodRecB] := by
    rw [heval]
    simp
  have h3 : prodRowB ∉ analyze_by_product [prodRecA, prodRecB] 1 := by
    rw [analyze_by_product, heval]
    simp [prodRowA, prodRowB]
  exact ⟨h1, h2, h3, (C10_top_n [prodRecA, prodRecB] 1).2.1 prodRowA h1 prodRowB h2 h3⟩

end SalesAnalyzer
